import Mathlib

/-!
Verification development for the svg2png rasterization engine.

The Go sources are shallowly embedded: pure fragments become Lean
functions, float64 arithmetic is idealized as exact rational (ℚ) or real
(ℝ) arithmetic, Go strings are lists of characters, Go maps become
association lists (with the unspecified range-iteration order made an
explicit list order), and loops whose termination is in question are
given an explicit fuel parameter (`none` = the fuel ran out).
-/

namespace Svg2png

/-! ## Framebuffer (FrameBuffer.SetPixel / FrameBuffer.GetPixel) -/

/-- A color as stored in the RGBA framebuffer, one byte per channel. -/
structure RGBA8 where
  r : Nat
  g : Nat
  b : Nat
  a : Nat
deriving DecidableEq, Repr

/-- Model of Go `color.Transparent`. -/
def transparentColor : RGBA8 := ⟨0, 0, 0, 0⟩

/-- Model of `raster.FrameBuffer`: the owned RGBA pixel buffer. -/
structure FrameBuffer where
  width : Nat
  height : Nat
  pix : Int → Int → RGBA8

/-- Model of `FrameBuffer.SetPixel`: writes only inside the bounds. -/
def setPixel (fb : FrameBuffer) (x y : Int) (c : RGBA8) : FrameBuffer :=
  if 0 ≤ x ∧ x < (fb.width : Int) ∧ 0 ≤ y ∧ y < (fb.height : Int) then
    { fb with pix := fun i j => if i = x ∧ j = y then c else fb.pix i j }
  else fb

/-- Model of `FrameBuffer.GetPixel`: transparent outside the bounds. -/
def getPixel (fb : FrameBuffer) (x y : Int) : RGBA8 :=
  if 0 ≤ x ∧ x < (fb.width : Int) ∧ 0 ≤ y ∧ y < (fb.height : Int) then fb.pix x y
  else transparentColor

/-- A concrete 2×2 all-transparent framebuffer used as a witness input. -/
def demoFB : FrameBuffer := ⟨2, 2, fun _ _ => transparentColor⟩

/-! ## Compositor (RasterContext.compositeAlpha), per-pixel core -/

/-- Truncation toward zero, as Go's float64-to-integer conversion. -/
def truncQ (q : ℚ) : Int := q.num / q.den

/-- Per-pixel blend of `compositeAlpha` after the clip mask has been folded
into `m`: skip when the effective alpha is non-positive, otherwise
source-over blend the color channels and accumulate the alpha channel. -/
def blendPix (cr cg cb : Nat) (opacity : ℚ) (m : Nat) (bg : RGBA8) : RGBA8 :=
  let a : ℚ := (m : ℚ) / 255 * opacity
  if a ≤ 0 then bg
  else
    { r := (truncQ ((cr : ℚ) * a + (bg.r : ℚ) * (1 - a))).toNat
      g := (truncQ ((cg : ℚ) * a + (bg.g : ℚ) * (1 - a))).toNat
      b := (truncQ ((cb : ℚ) * a + (bg.b : ℚ) * (1 - a))).toNat
      a := (truncQ (min 255 ((bg.a : ℚ) + (m : ℚ) * opacity))).toNat }

/-- One pixel of `RasterContext.compositeAlpha`: `mask` is the coverage
byte, `clip` the active clip-mask byte (if a clip mask is set), `cr cg cb`
the source color bytes, `bg` the framebuffer pixel. -/
def compositePixel (cr cg cb : Nat) (opacity : ℚ) (clip : Option Nat) (mask : Nat)
    (bg : RGBA8) : RGBA8 :=
  if mask = 0 then bg
  else
    match clip with
    | some cm => if cm = 0 then bg else blendPix cr cg cb opacity (mask * cm / 255) bg
    | none => blendPix cr cg cb opacity mask bg

/-- The coverage byte after folding in the clip mask, as the code computes it. -/
def effMask (clip : Option Nat) (mask : Nat) : Nat :=
  match clip with
  | some cm => mask * cm / 255
  | none => mask

/-- The clip factor as a rational (1 when no clip mask is active). -/
def clipQ (clip : Option Nat) : ℚ :=
  match clip with
  | some cm => (cm : ℚ)
  | none => 1

/-! ## Gradient stop interpolation (interpolateStops, DrawLinearGradient) -/

/-- A resolved gradient stop (`raster.gradStop`). -/
structure GradStop where
  offset : ℚ
  col : RGBA8
deriving DecidableEq, Repr

/-- Channelwise linear interpolation between two stops at fraction `f`. -/
def gradBlend (s0 s1 : GradStop) (f : ℚ) : RGBA8 :=
  { r := (truncQ ((s0.col.r : ℚ) * (1 - f) + (s1.col.r : ℚ) * f)).toNat
    g := (truncQ ((s0.col.g : ℚ) * (1 - f) + (s1.col.g : ℚ) * f)).toNat
    b := (truncQ ((s0.col.b : ℚ) * (1 - f) + (s1.col.b : ℚ) * f)).toNat
    a := (truncQ ((s0.col.a : ℚ) * (1 - f) + (s1.col.a : ℚ) * f)).toNat }

/-- The scan of `interpolateStops` over indices `i = 1, 2, …`: find the
first stop whose offset is ≥ `t` and blend with its predecessor. -/
def interpFind (t : ℚ) (prev : GradStop) : List GradStop → RGBA8
  | [] => prev.col
  | s :: rest =>
    if t ≤ s.offset then
      if s.offset - prev.offset ≤ 0 then s.col
      else gradBlend prev s ((t - prev.offset) / (s.offset - prev.offset))
    else interpFind t s rest

/-- The last stop of a non-empty stop list (Go `stops[len(stops)-1]`). -/
def lastStop (s0 : GradStop) (rest : List GradStop) : GradStop := rest.getLastD s0

/-- Model of `raster.interpolateStops`. -/
def interpolateStops (stops : List GradStop) (t : ℚ) : RGBA8 :=
  match stops with
  | [] => ⟨0, 0, 0, 255⟩
  | s0 :: rest =>
    if t ≤ s0.offset then s0.col
    else if t ≥ (lastStop s0 rest).offset then (lastStop s0 rest).col
    else interpFind t s0 rest

/-- The clamping of `t` to [0,1] performed in `DrawLinearGradient`'s pixel loop. -/
def clamp01 (t : ℚ) : ℚ := if t < 0 then 0 else if t > 1 then 1 else t

/-- The unclamped gradient parameter of a pixel `(px, py)` for the axis
`(gx1, gy1)-(gx2, gy2)`, as computed in `DrawLinearGradient`. -/
def linearT (gx1 gy1 gx2 gy2 px py : ℚ) : ℚ :=
  let dx := gx2 - gx1
  let dy := gy2 - gy1
  let lenSq := dx * dx + dy * dy
  if 0 < lenSq then ((px - gx1) * dx + (py - gy1) * dy) / lenSq else 0

/-- The color sampled by `DrawLinearGradient` for a pixel with unclamped
parameter `t`: clamp to [0,1], then interpolate the stops. -/
def sampleLinear (stops : List GradStop) (t : ℚ) : RGBA8 :=
  interpolateStops stops (clamp01 t)

/-- Opaque red, a concrete stop color. -/
def redCol : RGBA8 := ⟨255, 0, 0, 255⟩

/-- Opaque blue, a concrete stop color. -/
def blueCol : RGBA8 := ⟨0, 0, 255, 255⟩

/-! ## Font lookup (font.Renderer.FindFont) -/

/-- ASCII lowercasing of one character (Go `strings.ToLower` acts
per ASCII character on the inputs in question). -/
def asciiLower (c : Char) : Char :=
  if 'A' ≤ c ∧ c ≤ 'Z' then Char.ofNat (c.toNat + 32) else c

/-- ASCII lowercasing of a string, on the character-list model of strings. -/
def lowerChars (s : List Char) : List Char := s.map asciiLower

/-- The font map key `fmt.Sprintf("%s-%s", family, style)`. -/
def fontKey (family style : List Char) : List Char := family ++ '-' :: style

/-- Model of `font.Renderer.FindFont` (strings as character lists). The Go
`fonts` map is modeled as an association list; `fonts` is given in the
order in which Go's `range` happens to iterate the map — an order the Go
runtime does not specify.  Map key lookups do not depend on that order,
but the third, partial-match fallback scans the map in iteration order
and returns the first hit. -/
def findFont (fonts : List (List Char × Nat)) (family style : List Char) : Option Nat :=
  match fonts.lookup (fontKey family style) with
  | some ff => some ff
  | none =>
    match fonts.lookup (fontKey family ('R' :: 'e' :: 'g' :: 'u' :: 'l' :: 'a' :: 'r' :: [])) with
    | some ff => some ff
    | none =>
      match fonts.find?
          (fun e => List.isPrefixOf (lowerChars family ++ ['-']) (lowerChars e.1)) with
      | some e => some e.2
      | none => none

/-! ## Dash walks (dashThickLine, strokeSegmentsWithDash) -/

/-- Go `dashPx[dashIdx%len(dashPx)]`. -/
def dashAt (dashPx : List ℚ) (i : Nat) : ℚ := dashPx.getD (i % dashPx.length) 0

/-- The walk of `dashThickLine` along a line of length `totalLen`,
with explicit fuel; emits the parameter interval of each "on" run
(`addThickLine` maps an interval affinely onto the line). -/
def dashLineWalk (dashPx : List ℚ) (totalLen : ℚ) :
    Nat → ℚ → Nat → Bool → List (ℚ × ℚ) → Option (List (ℚ × ℚ))
  | 0, _, _, _, _ => none
  | fuel + 1, pos, dashIdx, drawing, acc =>
    if pos < totalLen then
      let dashLen := dashAt dashPx dashIdx
      let endPos := min (pos + dashLen) totalLen
      let acc' := if drawing then acc ++ [(pos, endPos)] else acc
      dashLineWalk dashPx totalLen fuel endPos (dashIdx + 1) (!drawing) acc'
    else some acc

/-- The inner walk of `strokeSegmentsWithDash` over one segment of length
`segLen`, carrying the running dash phase; returns the emitted "on"
intervals together with the dash state that persists to the next segment. -/
def dashSegWalk (dashPx : List ℚ) (segLen : ℚ) :
    Nat → ℚ → ℚ → Nat → Bool → List (ℚ × ℚ) → Option (List (ℚ × ℚ) × ℚ × Nat × Bool)
  | 0, _, _, _, _, _ => none
  | fuel + 1, pos, dashPos, dashIdx, drawing, acc =>
    if pos < segLen then
      let remaining := dashAt dashPx dashIdx - dashPos
      let advance := min remaining (segLen - pos)
      let acc' := if drawing then acc ++ [(pos, pos + advance)] else acc
      let pos' := pos + advance
      let dashPos' := dashPos + advance
      if dashPos' ≥ dashAt dashPx dashIdx then
        dashSegWalk dashPx segLen fuel pos' 0 (dashIdx + 1) (!drawing) acc'
      else
        dashSegWalk dashPx segLen fuel pos' dashPos' dashIdx drawing acc'
    else some (acc, dashPos, dashIdx, drawing)

/-! ## SVG path parsing (pathReader, buildPath, buildStrokeRasterizer)

The `pathReader` is modeled on lists of characters; the reader position
is the remaining suffix.  `pathReader.readFloat` resets the position to
the start of the token on failure — since the start is recorded after
`skipWS`, a failed read leaves the reader at the first non-separator
character, which is what the suffix-returning model does.

The parsed `float64` coordinates are idealized as exact decimals
`man · 10^exp`: every numeric literal the tokenizer accepts denotes such
a decimal, and the path builder only ever adds, subtracts and doubles
coordinates, operations under which the decimals are closed, so this
model computes exactly the real-number semantics of the Go code (the
`Dec.toRat` lemmas below state that interpretation). -/

/-- An exact decimal `man · 10^exp`, the value class of parsed path
coordinates. -/
structure Dec where
  man : Int
  exp : Int
deriving DecidableEq, Repr

/-- Exact addition of decimals (align to the smaller exponent). -/
def Dec.add (a b : Dec) : Dec :=
  if a.exp ≤ b.exp then ⟨a.man + b.man * (10 : Int) ^ (b.exp - a.exp).toNat, a.exp⟩
  else ⟨a.man * (10 : Int) ^ (a.exp - b.exp).toNat + b.man, b.exp⟩

/-- Exact multiplication of decimals. -/
def Dec.mul (a b : Dec) : Dec := ⟨a.man * b.man, a.exp + b.exp⟩

/-- Negation of a decimal. -/
def Dec.neg (a : Dec) : Dec := ⟨-a.man, a.exp⟩

/-- Exact subtraction of decimals. -/
def Dec.sub (a b : Dec) : Dec := a.add b.neg

instance : Add Dec := ⟨Dec.add⟩

instance : Mul Dec := ⟨Dec.mul⟩

instance : Neg Dec := ⟨Dec.neg⟩

instance : Sub Dec := ⟨Dec.sub⟩

instance (n : Nat) : OfNat Dec n := ⟨⟨n, 0⟩⟩

/-- The integer `n` as a decimal. -/
def Dec.ofInt (n : Int) : Dec := ⟨n, 0⟩

/-- The rational value a decimal denotes. -/
def Dec.toRat (d : Dec) : ℚ := (d.man : ℚ) * (10 : ℚ) ^ d.exp

/-- Go `pathReader.skipWS` separator set (whitespace or comma). -/
def isWSChar (c : Char) : Bool := c = ' ' || c = '\t' || c = '\n' || c = '\r' || c = ','

/-- ASCII digit test, as `c >= '0' && c <= '9'` in `readFloat`. -/
def isDigitChar (c : Char) : Bool := '0' ≤ c && c ≤ '9'

/-- Go `isPathCmd`: any ASCII letter counts as a command byte. -/
def isPathCmdChar (c : Char) : Bool := ('A' ≤ c && c ≤ 'Z') || ('a' ≤ c && c ≤ 'z')

/-- Go `pathReader.isNextFloat` head test (after the whitespace skip). -/
def floatStart (l : List Char) : Bool :=
  match l with
  | [] => false
  | c :: _ => c = '-' || c = '+' || c = '.' || isDigitChar c

/-- Decimal value of a digit string. -/
def digitsVal (ds : List Char) : Nat :=
  ds.foldl (fun acc c => acc * 10 + (c.toNat - '0'.toNat)) 0

/-- Exact decimal value of the float token scanned by `readFloat`
(sign, integer digits `d1`, fraction digits `d2`, decimal exponent):
`sign · digits(d1 ++ d2) · 10^(exp − |d2|)`. -/
def floatVal (neg : Bool) (d1 d2 : List Char) (exp : Int) : Dec :=
  ⟨(if neg then -1 else 1) * (digitsVal (d1 ++ d2) : Int), exp - (d2.length : Int)⟩

/-- The token scan of `pathReader.readFloat` after its whitespace skip:
optional sign, integer digits, optional fraction, optional exponent.
Returns the parsed value and the number of characters consumed; `none`
when no digit follows the sign/decimal point, or when an `e`/`E` is not
followed by a digit (then Go's `strconv.ParseFloat` fails and the reader
position is reset, consuming nothing). -/
def scanFloat (l0 : List Char) : Option Dec × Nat :=
  match l0 with
  | [] => (none, 0)
  | _ :: _ =>
    let neg := match l0 with | '-' :: _ => true | _ => false
    let s : Nat := match l0 with | '-' :: _ => 1 | '+' :: _ => 1 | _ => 0
    let l1 := l0.drop s
    let d1 := l1.takeWhile isDigitChar
    let l2 := l1.drop d1.length
    let hasDot := match l2 with | '.' :: _ => true | _ => false
    let d2 := if hasDot then (l2.drop 1).takeWhile isDigitChar else []
    let dotLen : Nat := if hasDot then 1 else 0
    let l3 := l2.drop (dotLen + d2.length)
    if d1.length + d2.length = 0 then (none, 0)
    else
      let n0 := s + d1.length + dotLen + d2.length
      match l3 with
      | c :: t =>
        if c = 'e' || c = 'E' then
          let esNeg := match t with | '-' :: _ => true | _ => false
          let es : Nat := match t with | '-' :: _ => 1 | '+' :: _ => 1 | _ => 0
          let ed := (t.drop es).takeWhile isDigitChar
          if ed.length = 0 then (none, 0)
          else
            (some (floatVal neg d1 d2 ((if esNeg then -1 else 1) * (digitsVal ed : Int))),
             n0 + 1 + es + ed.length)
        else (some (floatVal neg d1 d2 0), n0)
      | [] => (some (floatVal neg d1 d2 0), n0)

/-- Model of `pathReader.readFloat`: skip separators, scan one float.
On failure the returned suffix is the post-skip position (Go resets
`p.pos` to `start`, which is recorded after `skipWS`). -/
def readFloat (l : List Char) : Option Dec × List Char :=
  let l0 := l.dropWhile isWSChar
  match scanFloat l0 with
  | (none, _) => (none, l0)
  | (some v, n) => (some v, l0.drop n)

/-- Sequencing of two reads, with Go's semantics for a group of
`readFloat` calls followed by an `ok` check: a failed read resets the
reader to its own start, and every later read of the group fails at the
same spot without moving, so the group's net position on failure is the
first failing read's position. -/
def rfSeq {α β : Type} (f : List Char → Option α × List Char)
    (g : List Char → Option β × List Char) (l : List Char) :
    Option (α × β) × List Char :=
  match f l with
  | (none, l') => (none, l')
  | (some a, l1) =>
    match g l1 with
    | (none, l') => (none, l')
    | (some b, l') => (some (a, b), l')

/-- One float. -/
def rf1 : List Char → Option Dec × List Char := readFloat

/-- Two floats (a coordinate pair). -/
def rf2 : List Char → Option (Dec × Dec) × List Char := rfSeq rf1 rf1

/-- Four floats (two coordinate pairs). -/
def rf4 : List Char → Option ((Dec × Dec) × (Dec × Dec)) × List Char := rfSeq rf2 rf2

/-- Six floats (three coordinate pairs, for `C`/`c`). -/
def rf6 : List Char → Option ((Dec × Dec) × ((Dec × Dec) × (Dec × Dec))) × List Char := rfSeq rf2 rf4

/-- Seven floats (the argument group of `A`/`a`). -/
def rf7 : List Char → Option (Dec × ((Dec × Dec) × ((Dec × Dec) × (Dec × Dec)))) × List Char :=
  rfSeq rf1 rf6

/-- A rasterizer call emitted by `buildPath`.  `arcCall` records the exact
invocation of `arcToBezier` (which is modeled separately). -/
inductive POp where
  | moveTo (p : Dec × Dec)
  | lineTo (p : Dec × Dec)
  | cubeTo (c1 c2 p : Dec × Dec)
  | quadTo (c1 p : Dec × Dec)
  | closeP
  | arcCall (from_ : Dec × Dec) (rx ry rot : Dec) (largeArc sweep : Bool) (to_ : Dec × Dec)
deriving DecidableEq, Repr

/-- The mutable scan state of `buildPath`: current point, subpath start,
last control point, and the rasterizer calls emitted so far. -/
structure PState where
  cur : Dec × Dec
  start : Dec × Dec
  lastCP : Dec × Dec
  ops : List POp
deriving DecidableEq, Repr

/-- The zero-initialized locals of `buildPath`. -/
def initPState : PState := ⟨(0, 0), (0, 0), (0, 0), []⟩

/-- Body of `buildPath`'s `L` repetition: absolute LineTo. -/
def updL (tp : Dec × Dec → Dec × Dec) (v : Dec × Dec) (ps : PState) : PState :=
  { ps with cur := v, ops := ps.ops ++ [POp.lineTo (tp v)] }

/-- Body of `buildPath`'s `l` repetition: relative LineTo. -/
def updLRel (tp : Dec × Dec → Dec × Dec) (d : Dec × Dec) (ps : PState) : PState :=
  let p := (ps.cur.1 + d.1, ps.cur.2 + d.2)
  { ps with cur := p, ops := ps.ops ++ [POp.lineTo (tp p)] }

/-- Body of `buildPath`'s `H` repetition. -/
def updH (tp : Dec × Dec → Dec × Dec) (x : Dec) (ps : PState) : PState :=
  let p := (x, ps.cur.2)
  { ps with cur := p, ops := ps.ops ++ [POp.lineTo (tp p)] }

/-- Body of `buildPath`'s `h` repetition. -/
def updHRel (tp : Dec × Dec → Dec × Dec) (dx : Dec) (ps : PState) : PState :=
  let p := (ps.cur.1 + dx, ps.cur.2)
  { ps with cur := p, ops := ps.ops ++ [POp.lineTo (tp p)] }

/-- Body of `buildPath`'s `V` repetition. -/
def updV (tp : Dec × Dec → Dec × Dec) (y : Dec) (ps : PState) : PState :=
  let p := (ps.cur.1, y)
  { ps with cur := p, ops := ps.ops ++ [POp.lineTo (tp p)] }

/-- Body of `buildPath`'s `v` repetition. -/
def updVRel (tp : Dec × Dec → Dec × Dec) (dy : Dec) (ps : PState) : PState :=
  let p := (ps.cur.1, ps.cur.2 + dy)
  { ps with cur := p, ops := ps.ops ++ [POp.lineTo (tp p)] }

/-- Body of `buildPath`'s `C` repetition. -/
def updC (tp : Dec × Dec → Dec × Dec) (v : (Dec × Dec) × ((Dec × Dec) × (Dec × Dec))) (ps : PState) : PState :=
  let p1 := v.1
  let p2 := v.2.1
  let p := v.2.2
  { ps with cur := p, lastCP := p2, ops := ps.ops ++ [POp.cubeTo (tp p1) (tp p2) (tp p)] }

/-- Body of `buildPath`'s `c` repetition. -/
def updCRel (tp : Dec × Dec → Dec × Dec) (v : (Dec × Dec) × ((Dec × Dec) × (Dec × Dec))) (ps : PState) : PState :=
  let p1 := (ps.cur.1 + v.1.1, ps.cur.2 + v.1.2)
  let p2 := (ps.cur.1 + v.2.1.1, ps.cur.2 + v.2.1.2)
  let p := (ps.cur.1 + v.2.2.1, ps.cur.2 + v.2.2.2)
  { ps with cur := p, lastCP := p2, ops := ps.ops ++ [POp.cubeTo (tp p1) (tp p2) (tp p)] }

/-- Body of `buildPath`'s `S` repetition: the first control point is the
reflection `2*current − lastControl` of the stored last control point. -/
def updS (tp : Dec × Dec → Dec × Dec) (v : (Dec × Dec) × (Dec × Dec)) (ps : PState) : PState :=
  let p1 := (2 * ps.cur.1 - ps.lastCP.1, 2 * ps.cur.2 - ps.lastCP.2)
  let p2 := v.1
  let p := v.2
  { ps with cur := p, lastCP := p2, ops := ps.ops ++ [POp.cubeTo (tp p1) (tp p2) (tp p)] }

/-- Body of `buildPath`'s `s` repetition. -/
def updSRel (tp : Dec × Dec → Dec × Dec) (v : (Dec × Dec) × (Dec × Dec)) (ps : PState) : PState :=
  let p1 := (2 * ps.cur.1 - ps.lastCP.1, 2 * ps.cur.2 - ps.lastCP.2)
  let p2 := (ps.cur.1 + v.1.1, ps.cur.2 + v.1.2)
  let p := (ps.cur.1 + v.2.1, ps.cur.2 + v.2.2)
  { ps with cur := p, lastCP := p2, ops := ps.ops ++ [POp.cubeTo (tp p1) (tp p2) (tp p)] }

/-- Body of `buildPath`'s `Q` repetition. -/
def updQ (tp : Dec × Dec → Dec × Dec) (v : (Dec × Dec) × (Dec × Dec)) (ps : PState) : PState :=
  let p1 := v.1
  let p := v.2
  { ps with cur := p, lastCP := p1, ops := ps.ops ++ [POp.quadTo (tp p1) (tp p)] }

/-- Body of `buildPath`'s `q` repetition. -/
def updQRel (tp : Dec × Dec → Dec × Dec) (v : (Dec × Dec) × (Dec × Dec)) (ps : PState) : PState :=
  let p1 := (ps.cur.1 + v.1.1, ps.cur.2 + v.1.2)
  let p := (ps.cur.1 + v.2.1, ps.cur.2 + v.2.2)
  { ps with cur := p, lastCP := p1, ops := ps.ops ++ [POp.quadTo (tp p1) (tp p)] }

/-- Body of `buildPath`'s `T` repetition: reflects, and stores the
reflected point as the new last control point. -/
def updT (tp : Dec × Dec → Dec × Dec) (v : Dec × Dec) (ps : PState) : PState :=
  let p1 := (2 * ps.cur.1 - ps.lastCP.1, 2 * ps.cur.2 - ps.lastCP.2)
  { ps with cur := v, lastCP := p1, ops := ps.ops ++ [POp.quadTo (tp p1) (tp v)] }

/-- Body of `buildPath`'s `t` repetition. -/
def updTRel (tp : Dec × Dec → Dec × Dec) (d : Dec × Dec) (ps : PState) : PState :=
  let p1 := (2 * ps.cur.1 - ps.lastCP.1, 2 * ps.cur.2 - ps.lastCP.2)
  let p := (ps.cur.1 + d.1, ps.cur.2 + d.2)
  { ps with cur := p, lastCP := p1, ops := ps.ops ++ [POp.quadTo (tp p1) (tp p)] }

/-- Body of `buildPath`'s `A`/`a` repetition: record the `arcToBezier`
call and advance the current point (the last control point is untouched). -/
def updA (rel : Bool) (v : Dec × ((Dec × Dec) × ((Dec × Dec) × (Dec × Dec)))) (ps : PState) : PState :=
  let rx := v.1
  let ry := v.2.1.1
  let rot := v.2.1.2
  let laF := v.2.2.1.1
  let swF := v.2.2.1.2
  let e0 := v.2.2.2
  let e := if rel then (ps.cur.1 + e0.1, ps.cur.2 + e0.2) else e0
  { ps with
    cur := e
    ops := ps.ops ++ [POp.arcCall ps.cur rx ry rot (decide (laF.man ≠ 0)) (decide (swF.man ≠ 0)) e] }

/-- One `for pr.isNextFloat()` repetition loop of `buildPath`: keep
reading argument groups with `R` and applying the case body `upd`; stop
(without consuming further input) on the first failed group.  Fuel is
only spent on successful iterations; since every successful group
consumes at least one character, the fuel `l.length + 1` that `runPath`
passes can never run out — this loop always terminates in Go as well,
and the fuel only makes the recursion structural. -/
def cmdLoopBody {α : Type} (R : List Char → Option α × List Char) (upd : α → PState → PState)
    (next : PState → List Char → Option (PState × List Char)) (ps : PState) (l : List Char) :
    Option (PState × List Char) :=
  let l0 := l.dropWhile isWSChar
  if floatStart l0 then
    match R l0 with
    | (none, l') => some (ps, l')
    | (some a, l') => next (upd a ps) l'
  else some (ps, l0)

/-- The fuel recursion for `cmdLoopBody` (fuel is spent per iteration),
written with a bare `Nat.rec` so that evaluation at a fuel literal
unfolds one step at a time. -/
def cmdLoop {α : Type} (R : List Char → Option α × List Char) (upd : α → PState → PState)
    (fuel : Nat) : PState → List Char → Option (PState × List Char) :=
  @Nat.rec (fun _ => PState → List Char → Option (PState × List Char))
    (cmdLoopBody R upd fun _ _ => none)
    (fun _ ih => cmdLoopBody R upd ih) fuel

/-- Model of `raster.buildPath` (the fill-side path interpreter), with
fuel for the outer scan loop; `tp` is the `toPixel` callback.  Note that
the Go switch has no `default` case: a command byte outside the supported
set leaves the reader position untouched. -/
def runPathBody (tp : Dec × Dec → Dec × Dec)
    (next : PState → Char → List Char → Option (List POp))
    (ps : PState) (cmd0 : Char) (l : List Char) : Option (List POp) :=
    let l0 := l.dropWhile isWSChar
    match l0 with
    | [] => some ps.ops
    | c :: rest =>
      let isCmd := isPathCmdChar c
      let cmd := if isCmd then c else cmd0
      let l1 := if isCmd then rest else l0
      if cmd = 'M' ∨ cmd = 'm' then
        match rf2 l1 with
        | (none, l') => next ps cmd l'
        | (some v, l') =>
          let p := if cmd = 'm' then (ps.cur.1 + v.1, ps.cur.2 + v.2) else v
          next
            { ps with cur := p, start := p, ops := ps.ops ++ [POp.moveTo (tp p)] }
            (if cmd = 'M' then 'L' else 'l') l'
      else if cmd = 'L' then
        match cmdLoop rf2 (updL tp) (l1.length + 1) ps l1 with
        | none => none
        | some (ps', l') => next ps' cmd l'
      else if cmd = 'l' then
        match cmdLoop rf2 (updLRel tp) (l1.length + 1) ps l1 with
        | none => none
        | some (ps', l') => next ps' cmd l'
      else if cmd = 'H' then
        match cmdLoop rf1 (updH tp) (l1.length + 1) ps l1 with
        | none => none
        | some (ps', l') => next ps' cmd l'
      else if cmd = 'h' then
        match cmdLoop rf1 (updHRel tp) (l1.length + 1) ps l1 with
        | none => none
        | some (ps', l') => next ps' cmd l'
      else if cmd = 'V' then
        match cmdLoop rf1 (updV tp) (l1.length + 1) ps l1 with
        | none => none
        | some (ps', l') => next ps' cmd l'
      else if cmd = 'v' then
        match cmdLoop rf1 (updVRel tp) (l1.length + 1) ps l1 with
        | none => none
        | some (ps', l') => next ps' cmd l'
      else if cmd = 'C' then
        match cmdLoop rf6 (updC tp) (l1.length + 1) ps l1 with
        | none => none
        | some (ps', l') => next ps' cmd l'
      else if cmd = 'c' then
        match cmdLoop rf6 (updCRel tp) (l1.length + 1) ps l1 with
        | none => none
        | some (ps', l') => next ps' cmd l'
      else if cmd = 'S' then
        match cmdLoop rf4 (updS tp) (l1.length + 1) ps l1 with
        | none => none
        | some (ps', l') => next ps' cmd l'
      else if cmd = 's' then
        match cmdLoop rf4 (updSRel tp) (l1.length + 1) ps l1 with
        | none => none
        | some (ps', l') => next ps' cmd l'
      else if cmd = 'Q' then
        match cmdLoop rf4 (updQ tp) (l1.length + 1) ps l1 with
        | none => none
        | some (ps', l') => next ps' cmd l'
      else if cmd = 'q' then
        match cmdLoop rf4 (updQRel tp) (l1.length + 1) ps l1 with
        | none => none
        | some (ps', l') => next ps' cmd l'
      else if cmd = 'T' then
        match cmdLoop rf2 (updT tp) (l1.length + 1) ps l1 with
        | none => none
        | some (ps', l') => next ps' cmd l'
      else if cmd = 't' then
        match cmdLoop rf2 (updTRel tp) (l1.length + 1) ps l1 with
        | none => none
        | some (ps', l') => next ps' cmd l'
      else if cmd = 'A' ∨ cmd = 'a' then
        match cmdLoop rf7 (updA (cmd = 'a')) (l1.length + 1) ps l1 with
        | none => none
        | some (ps', l') => next ps' cmd l'
      else if cmd = 'Z' ∨ cmd = 'z' then
        next { ps with cur := ps.start, ops := ps.ops ++ [POp.closeP] } cmd l1
      else
        next ps cmd l1

/-- The fuel recursion for `runPathBody`: one unit of fuel per outer
scan iteration of `buildPath`. -/
def runPath (tp : Dec × Dec → Dec × Dec) : Nat → PState → Char → List Char → Option (List POp)
  | 0 => fun _ _ _ => none
  | fuel + 1 => runPathBody tp (runPath tp fuel)

/-- The scan state of `buildStrokeRasterizer`: current point, subpath
start, and the collected pixel-space segments. -/
structure SState where
  cur : Dec × Dec
  start : Dec × Dec
  segs : List ((Dec × Dec) × (Dec × Dec))
deriving DecidableEq, Repr

/-- The zero-initialized locals of `buildStrokeRasterizer`. -/
def initSState : SState := ⟨(0, 0), (0, 0), []⟩

/-- The `default` case of `buildStrokeRasterizer`:
`for pr.isNextFloat() { pr.readFloat() }`.  Note that the loop also
repeats (forever, in Go) when `readFloat` fails while `isNextFloat`
stays true; exhausting the fuel (`none`) models that divergence, and
the fuel `l.length + 1` passed by `runStroke` suffices for every
terminating run since a successful read consumes a character. -/
def skipFloatsBody (next : List Char → Option (List Char)) (l : List Char) :
    Option (List Char) :=
  let l0 := l.dropWhile isWSChar
  if floatStart l0 then next (readFloat l0).2
  else some l0

/-- The fuel recursion for `skipFloatsBody`, written with a bare
`Nat.rec` so that evaluation at a fuel literal unfolds one step at a
time. -/
def skipFloats (fuel : Nat) : List Char → Option (List Char) :=
  @Nat.rec (fun _ => List Char → Option (List Char))
    (skipFloatsBody fun _ => none)
    (fun _ ih => skipFloatsBody ih) fuel

/-- Model of `raster.buildStrokeRasterizer`'s scan loop (one argument
group per outer iteration; unknown commands skip their numeric tokens
through the `default` case). -/
def runStrokeBody (tp : Dec × Dec → Dec × Dec)
    (next : SState → Char → List Char → Option (List ((Dec × Dec) × (Dec × Dec))))
    (ss : SState) (cmd0 : Char) (l : List Char) :
    Option (List ((Dec × Dec) × (Dec × Dec))) :=
    let l0 := l.dropWhile isWSChar
    match l0 with
    | [] => some ss.segs
    | c :: rest =>
      let isCmd := isPathCmdChar c
      let cmd := if isCmd then c else cmd0
      let l1 := if isCmd then rest else l0
      if cmd = 'M' then
        match rf2 l1 with
        | (none, l') => next ss cmd l'
        | (some v, l') => next { ss with cur := v, start := v } 'L' l'
      else if cmd = 'm' then
        match rf2 l1 with
        | (none, l') => next ss cmd l'
        | (some v, l') =>
          let p := (ss.cur.1 + v.1, ss.cur.2 + v.2)
          next { ss with cur := p, start := p } 'l' l'
      else if cmd = 'L' then
        match rf2 l1 with
        | (none, l') => next ss cmd l'
        | (some v, l') =>
          next
            { ss with cur := v, segs := ss.segs ++ [(tp ss.cur, tp v)] } cmd l'
      else if cmd = 'l' then
        match rf2 l1 with
        | (none, l') => next ss cmd l'
        | (some v, l') =>
          let p := (ss.cur.1 + v.1, ss.cur.2 + v.2)
          next
            { ss with cur := p, segs := ss.segs ++ [(tp ss.cur, tp p)] } cmd l'
      else if cmd = 'H' then
        match rf1 l1 with
        | (none, l') => next ss cmd l'
        | (some x, l') =>
          let p := (x, ss.cur.2)
          next
            { ss with cur := p, segs := ss.segs ++ [(tp ss.cur, tp p)] } cmd l'
      else if cmd = 'h' then
        match rf1 l1 with
        | (none, l') => next ss cmd l'
        | (some dx, l') =>
          let p := (ss.cur.1 + dx, ss.cur.2)
          next
            { ss with cur := p, segs := ss.segs ++ [(tp ss.cur, tp p)] } cmd l'
      else if cmd = 'V' then
        match rf1 l1 with
        | (none, l') => next ss cmd l'
        | (some y, l') =>
          let p := (ss.cur.1, y)
          next
            { ss with cur := p, segs := ss.segs ++ [(tp ss.cur, tp p)] } cmd l'
      else if cmd = 'v' then
        match rf1 l1 with
        | (none, l') => next ss cmd l'
        | (some dy, l') =>
          let p := (ss.cur.1, ss.cur.2 + dy)
          next
            { ss with cur := p, segs := ss.segs ++ [(tp ss.cur, tp p)] } cmd l'
      else if cmd = 'Z' ∨ cmd = 'z' then
        next
          { ss with cur := ss.start, segs := ss.segs ++ [(tp ss.cur, tp ss.start)] } cmd l1
      else
        match skipFloats (l1.length + 1) l1 with
        | none => none
        | some l' => next ss cmd l'

/-- The fuel recursion for `runStrokeBody`: one unit of fuel per outer
scan iteration of `buildStrokeRasterizer`. -/
def runStroke (tp : Dec × Dec → Dec × Dec) :
    Nat → SState → Char → List Char → Option (List ((Dec × Dec) × (Dec × Dec)))
  | 0 => fun _ _ _ => none
  | fuel + 1 => runStrokeBody tp (runStroke tp fuel)

/-- The `buildPath` state after scanning `M0 0`. -/
def psM00 : PState := ⟨(0, 0), (0, 0), (0, 0), [POp.moveTo (0, 0)]⟩

/-- The `buildPath` state after scanning `M0 0 L5 5`. -/
def psM00L55 : PState := ⟨(5, 5), (0, 0), (0, 0), [POp.moveTo (0, 0), POp.lineTo (5, 5)]⟩

/-! ## URL fill and clip-path dispatch (drawURLFill, PushClipPath)

The gradient/pattern/clip payloads and the framebuffer are abstracted as
type parameters; the three draw collaborators are passed as functions.
Only the lookup/dispatch structure — the part the claims are about — is
concrete. -/

/-- Model of `parser.Defs`: identifier-keyed definition maps. -/
structure DefsM (LG RG PE CE : Type) where
  linearGradients : List (String × LG)
  radialGradients : List (String × RG)
  patterns : List (String × PE)
  clipPaths : List (String × CE)

/-- Model of `RasterContext.drawURLFill`: try the linear-gradient map,
then the radial-gradient map, then the pattern map; draw with the first
hit, otherwise do nothing.  A nil `defs` also does nothing. -/
def drawURLFill {LG RG PE CE FB : Type} (drawLin : LG → FB → FB) (drawRad : RG → FB → FB)
    (drawPat : PE → FB → FB) (defs : Option (DefsM LG RG PE CE)) (url : String) (fb : FB) :
    FB :=
  match defs with
  | none => fb
  | some d =>
    match d.linearGradients.lookup url with
    | some lg => drawLin lg fb
    | none =>
      match d.radialGradients.lookup url with
      | some rg => drawRad rg fb
      | none =>
        match d.patterns.lookup url with
        | some pe => drawPat pe fb
        | none => fb

/-- The clip-mask slot of the raster context. -/
structure ClipCtx (CM : Type) where
  clipMask : Option CM

/-- Model of `RasterContext.PushClipPath`: look the id up in the clip
map; on a miss (or nil defs) the context is left untouched, otherwise the
built mask is installed (`mkMask` abstracts the child-shape rasterization). -/
def pushClipPath {LG RG PE CE CM : Type} (mkMask : CE → CM)
    (defs : Option (DefsM LG RG PE CE)) (clipId : String) (rc : ClipCtx CM) : ClipCtx CM :=
  match defs with
  | none => rc
  | some d =>
    match d.clipPaths.lookup clipId with
    | none => rc
    | some elem => { rc with clipMask := some (mkMask elem) }

/-- A concrete defs table used as a witness input. -/
def demoDefs : DefsM Nat Nat Nat Nat := ⟨[("other", 0)], [], [], [("c0", 3)]⟩

/-! ## Arc converter (arcToBezier), real-arithmetic semantics

The float64 trigonometry of `arcToBezier` is idealized over ℝ.  Each Go
local is a definition over the argument bundle `ArcIn`, in the order the
code computes them. -/

/-- The arguments of `arcToBezier` (after `buildPath` has made the
endpoint absolute). -/
structure ArcIn where
  x1 : ℝ
  y1 : ℝ
  rx : ℝ
  ry : ℝ
  phi : ℝ
  largeArc : Bool
  sweep : Bool
  x2 : ℝ
  y2 : ℝ

noncomputable section

/-- Go `rx = math.Abs(rx)`. -/
def arcRx0 (A : ArcIn) : ℝ := |A.rx|

/-- Go `ry = math.Abs(ry)`. -/
def arcRy0 (A : ArcIn) : ℝ := |A.ry|

/-- Go `phiRad := phi * math.Pi / 180`. -/
def arcPhiRad (A : ArcIn) : ℝ := A.phi * Real.pi / 180

/-- Go `cosPhi`. -/
def arcCphi (A : ArcIn) : ℝ := Real.cos (arcPhiRad A)

/-- Go `sinPhi`. -/
def arcSphi (A : ArcIn) : ℝ := Real.sin (arcPhiRad A)

/-- Go `dx := (x1 - x2) / 2`. -/
def arcDx (A : ArcIn) : ℝ := (A.x1 - A.x2) / 2

/-- Go `dy := (y1 - y2) / 2`. -/
def arcDy (A : ArcIn) : ℝ := (A.y1 - A.y2) / 2

/-- Go `x1p := cosPhi*dx + sinPhi*dy`. -/
def arcX1p (A : ArcIn) : ℝ := arcCphi A * arcDx A + arcSphi A * arcDy A

/-- Go `y1p := -sinPhi*dx + cosPhi*dy`. -/
def arcY1p (A : ArcIn) : ℝ := -arcSphi A * arcDx A + arcCphi A * arcDy A

/-- Go `lambda := x1psq/rxsq + y1psq/rysq`. -/
def arcLam (A : ArcIn) : ℝ := arcX1p A ^ 2 / arcRx0 A ^ 2 + arcY1p A ^ 2 / arcRy0 A ^ 2

/-- The radius `rx` after the `lambda > 1` correction. -/
def arcRxa (A : ArcIn) : ℝ :=
  if 1 < arcLam A then arcRx0 A * Real.sqrt (arcLam A) else arcRx0 A

/-- The radius `ry` after the `lambda > 1` correction. -/
def arcRya (A : ArcIn) : ℝ :=
  if 1 < arcLam A then arcRy0 A * Real.sqrt (arcLam A) else arcRy0 A

/-- Go `num := rxsq*rysq - rxsq*y1psq - rysq*x1psq` (corrected radii). -/
def arcNum (A : ArcIn) : ℝ :=
  arcRxa A ^ 2 * arcRya A ^ 2 - arcRxa A ^ 2 * arcY1p A ^ 2 - arcRya A ^ 2 * arcX1p A ^ 2

/-- Go `den := rxsq*y1psq + rysq*x1psq` (corrected radii). -/
def arcDen (A : ArcIn) : ℝ := arcRxa A ^ 2 * arcY1p A ^ 2 + arcRya A ^ 2 * arcX1p A ^ 2

/-- Go `sq` before the sign flip: `Sqrt(num/den)` when positive, else 0. -/
def arcSq0 (A : ArcIn) : ℝ :=
  if 0 < arcDen A ∧ 0 < arcNum A / arcDen A then Real.sqrt (arcNum A / arcDen A) else 0

/-- Go `sq` after `if largeArc == sweep { sq = -sq }`. -/
def arcSq (A : ArcIn) : ℝ := if A.largeArc = A.sweep then -arcSq0 A else arcSq0 A

/-- Go `cxp := sq * rx * y1p / ry`. -/
def arcCxp (A : ArcIn) : ℝ := arcSq A * arcRxa A * arcY1p A / arcRya A

/-- Go `cyp := -sq * ry * x1p / rx`. -/
def arcCyp (A : ArcIn) : ℝ := -arcSq A * arcRya A * arcX1p A / arcRxa A

/-- Go `cx := cosPhi*cxp - sinPhi*cyp + (x1+x2)/2`. -/
def arcCx (A : ArcIn) : ℝ := arcCphi A * arcCxp A - arcSphi A * arcCyp A + (A.x1 + A.x2) / 2

/-- Go `cy := sinPhi*cxp + cosPhi*cyp + (y1+y2)/2`. -/
def arcCy (A : ArcIn) : ℝ := arcSphi A * arcCxp A + arcCphi A * arcCyp A + (A.y1 + A.y2) / 2

/-- Go `ux := (x1p - cxp) / rx`. -/
def arcUx (A : ArcIn) : ℝ := (arcX1p A - arcCxp A) / arcRxa A

/-- Go `uy := (y1p - cyp) / ry`. -/
def arcUy (A : ArcIn) : ℝ := (arcY1p A - arcCyp A) / arcRya A

/-- Go `vx := (-x1p - cxp) / rx`. -/
def arcVx (A : ArcIn) : ℝ := (-arcX1p A - arcCxp A) / arcRxa A

/-- Go `vy := (-y1p - cyp) / ry`. -/
def arcVy (A : ArcIn) : ℝ := (-arcY1p A - arcCyp A) / arcRya A

/-- Go `theta1 := math.Atan2(uy, ux)`, as the complex argument. -/
def arcTheta1 (A : ArcIn) : ℝ := Complex.arg ⟨arcUx A, arcUy A⟩

/-- Go `dot := ux*vx + uy*vy` before clamping. -/
def arcDotRaw (A : ArcIn) : ℝ := arcUx A * arcVx A + arcUy A * arcVy A

/-- Go `dot = math.Max(-1, math.Min(1, dot))`. -/
def arcDot (A : ArcIn) : ℝ := max (-1) (min 1 (arcDotRaw A))

/-- Go `dtheta := math.Acos(dot)`. -/
def arcDth0 (A : ArcIn) : ℝ := Real.arccos (arcDot A)

/-- The cross product `ux*vy - uy*vx` deciding the sweep sign. -/
def arcCross (A : ArcIn) : ℝ := arcUx A * arcVy A - arcUy A * arcVx A

/-- `dtheta` after the sign flip `if ux*vy-uy*vx < 0 { dtheta = -dtheta }`. -/
def arcDth1 (A : ArcIn) : ℝ := if arcCross A < 0 then -arcDth0 A else arcDth0 A

/-- `dtheta` after the ±2π sweep-direction correction. -/
def arcDtheta (A : ArcIn) : ℝ :=
  if A.sweep = true ∧ arcDth1 A < 0 then arcDth1 A + 2 * Real.pi
  else if A.sweep = false ∧ 0 < arcDth1 A then arcDth1 A - 2 * Real.pi
  else arcDth1 A

/-- Go `nSegs := int(math.Ceil(|dtheta| / (π/2)))`, forced to at least 1. -/
def arcNSegs (A : ArcIn) : ℕ := max 1 ⌈|arcDtheta A| / (Real.pi / 2)⌉₊

/-- Go `dthetaSeg := dtheta / float64(nSegs)`. -/
def arcDts (A : ArcIn) : ℝ := arcDtheta A / (arcNSegs A : ℝ)

/-- The point of the rotated ellipse at angle `t` (Go `ex… , ey…`). -/
def arcEllipsePt (A : ArcIn) (t : ℝ) : ℝ × ℝ :=
  (arcCx A + arcRxa A * arcCphi A * Real.cos t - arcRya A * arcSphi A * Real.sin t,
   arcCy A + arcRxa A * arcSphi A * Real.cos t + arcRya A * arcCphi A * Real.sin t)

/-- The tangent of the rotated ellipse at angle `t` (Go `dex… , dey…`). -/
def arcEllipseDeriv (A : ArcIn) (t : ℝ) : ℝ × ℝ :=
  (-arcRxa A * arcCphi A * Real.sin t - arcRya A * arcSphi A * Real.cos t,
   -arcRxa A * arcSphi A * Real.sin t + arcRya A * arcCphi A * Real.cos t)

end

/-- A cubic Bezier segment emitted by the arc converter. -/
structure CubicR where
  c1 : ℝ × ℝ
  c2 : ℝ × ℝ
  e : ℝ × ℝ

/-- The three outcomes of `arcToBezier`: a degenerate straight line, no
output for coincident endpoints, or a chain of cubics. -/
inductive ArcOut where
  | line (p : ℝ × ℝ)
  | skip
  | curves (l : List CubicR)

noncomputable section

/-- The `i`-th cubic emitted by `arcToBezier`'s segment loop. -/
def arcSegCubic (A : ArcIn) (i : ℕ) : CubicR :=
  let t1 := arcTheta1 A + (i : ℝ) * arcDts A
  let t2 := arcTheta1 A + ((i : ℝ) + 1) * arcDts A
  let alpha := Real.sin (t2 - t1) * (Real.sqrt (4 + 3 * Real.tan ((t2 - t1) / 2) ^ 2) - 1) / 3
  let p1 := arcEllipsePt A t1
  let d1 := arcEllipseDeriv A t1
  let p2 := arcEllipsePt A t2
  let d2 := arcEllipseDeriv A t2
  ⟨(p1.1 + alpha * d1.1, p1.2 + alpha * d1.2), (p2.1 - alpha * d2.1, p2.2 - alpha * d2.2), p2⟩

/-- Model of `raster.arcToBezier` (user-space geometry; `toPixel` is
applied pointwise to the emitted cubics by the caller). -/
def arcToBezierR (A : ArcIn) : ArcOut :=
  if A.rx = 0 ∨ A.ry = 0 then ArcOut.line (A.x2, A.y2)
  else if A.x1 = A.x2 ∧ A.y1 = A.y2 then ArcOut.skip
  else ArcOut.curves ((List.range (arcNSegs A)).map (arcSegCubic A))

end

/-! ## Theorems -/

/-- The decimal model interprets multiplication correctly. -/
theorem Dec.toRat_mul (a b : Dec) : (a * b).toRat = a.toRat * b.toRat := by
  show (Dec.mul a b).toRat = a.toRat * b.toRat
  unfold Dec.mul Dec.toRat
  push_cast
  rw [zpow_add₀ (by norm_num : (10 : ℚ) ≠ 0)]
  ring

/-- The decimal model interprets addition correctly. -/
theorem Dec.toRat_add (a b : Dec) : (a + b).toRat = a.toRat + b.toRat := by
  show (Dec.add a b).toRat = a.toRat + b.toRat
  unfold Dec.add Dec.toRat
  rcases le_or_lt a.exp b.exp with h | h
  · rw [if_pos h]
    have h1 : ((b.exp - a.exp).toNat : ℤ) = b.exp - a.exp := Int.toNat_of_nonneg (by omega)
    push_cast
    rw [← zpow_natCast (10 : ℚ) ((b.exp - a.exp).toNat), h1, add_mul, mul_assoc,
      ← zpow_add₀ (by norm_num : (10 : ℚ) ≠ 0), sub_add_cancel]
  · rw [if_neg (not_le.mpr h)]
    have h1 : ((a.exp - b.exp).toNat : ℤ) = a.exp - b.exp := Int.toNat_of_nonneg (by omega)
    push_cast
    rw [← zpow_natCast (10 : ℚ) ((a.exp - b.exp).toNat), h1, add_mul, mul_assoc,
      ← zpow_add₀ (by norm_num : (10 : ℚ) ≠ 0), sub_add_cancel]

/-- The decimal model interprets negation correctly. -/
theorem Dec.toRat_neg (a : Dec) : (Dec.neg a).toRat = -a.toRat := by
  unfold Dec.neg Dec.toRat
  push_cast
  ring

/-- The decimal model interprets subtraction correctly. -/
theorem Dec.toRat_sub (a b : Dec) : (a - b).toRat = a.toRat - b.toRat := by
  show (Dec.sub a b).toRat = a.toRat - b.toRat
  unfold Dec.sub
  rw [show Dec.add a (Dec.neg b) = a + Dec.neg b from rfl, Dec.toRat_add, Dec.toRat_neg]
  ring

/-- The literal two denotes two. -/
theorem Dec.toRat_two : (2 : Dec).toRat = 2 := by
  show Dec.toRat ⟨2, 0⟩ = 2
  unfold Dec.toRat
  norm_num

/-- C10: `FrameBuffer.SetPixel` with coordinates outside the framebuffer's
bounds leaves the buffer unchanged, and `FrameBuffer.GetPixel` outside the
bounds returns the transparent color, so the pixel store is never touched
outside the owned buffer. -/
theorem setPixel_getPixel_bounds (fb : FrameBuffer) (x y : Int) (c : RGBA8)
    (h : ¬(0 ≤ x ∧ x < (fb.width : Int) ∧ 0 ≤ y ∧ y < (fb.height : Int))) :
    setPixel fb x y c = fb ∧ getPixel fb x y = transparentColor := by
  constructor
  · unfold setPixel
    rw [if_neg h]
  · unfold getPixel
    rw [if_neg h]

/-- Witness for C10 at the 2×2 demo framebuffer and the out-of-bounds
coordinate (5, 0). -/
theorem setPixel_getPixel_bounds_witness :
    setPixel demoFB 5 0 redCol = demoFB ∧ getPixel demoFB 5 0 = transparentColor :=
  setPixel_getPixel_bounds demoFB 5 0 redCol (by decide)

/-- C8: when a fill URL resolves to no gradient or pattern definition,
`drawURLFill` leaves the framebuffer untouched (and has no error channel
at all), and when a clip-path id resolves to no clip definition,
`PushClipPath` leaves the raster context untouched; in both cases the
rest of the shape's drawing proceeds and the render does not fail. -/
theorem unresolved_refs_are_skipped {LG RG PE CE CM FB : Type}
    (drawLin : LG → FB → FB) (drawRad : RG → FB → FB) (drawPat : PE → FB → FB)
    (mkMask : CE → CM) (d : DefsM LG RG PE CE) (url clipId : String) (fb : FB)
    (rc : ClipCtx CM) :
    (d.linearGradients.lookup url = none → d.radialGradients.lookup url = none →
      d.patterns.lookup url = none →
      drawURLFill drawLin drawRad drawPat (some d) url fb = fb) ∧
    drawURLFill drawLin drawRad drawPat (none : Option (DefsM LG RG PE CE)) url fb = fb ∧
    (d.clipPaths.lookup clipId = none → pushClipPath mkMask (some d) clipId rc = rc) ∧
    pushClipPath mkMask (none : Option (DefsM LG RG PE CE)) clipId rc = rc := by
  refine ⟨fun h1 h2 h3 => ?_, rfl, fun hc => ?_, rfl⟩
  · simp only [drawURLFill, h1, h2, h3]
  · simp only [pushClipPath, hc]

/-- Witness for C8 at a concrete defs table with no entry named `nosuch`. -/
theorem unresolved_refs_are_skipped_witness :
    drawURLFill (fun (_ : Nat) (n : Nat) => n + 1) (fun _ n => n + 2) (fun _ n => n + 3)
      (some demoDefs) "nosuch" 7 = 7 ∧
    pushClipPath (fun (_ : Nat) => (0 : Nat)) (some demoDefs) "nosuch" ⟨none⟩ = ⟨none⟩ :=
  ⟨(unresolved_refs_are_skipped (fun (_ : Nat) (n : Nat) => n + 1) (fun _ n => n + 2)
      (fun _ n => n + 3) (fun (_ : Nat) => (0 : Nat)) demoDefs "nosuch" "nosuch" 7
      ⟨none⟩).1 rfl rfl rfl,
   (unresolved_refs_are_skipped (fun (_ : Nat) (n : Nat) => n + 1) (fun _ n => n + 2)
      (fun _ n => n + 3) (fun (_ : Nat) => (0 : Nat)) demoDefs "nosuch" "nosuch" 7
      ⟨none⟩).2.2.1 rfl⟩

/-- C1: rendering is not a function of the input, options and font set
alone — `FindFont`'s partial-match fallback scans the font map in Go's
unspecified `range` order, so the same registered font set presented in
two iteration orders (a permutation of the same entries, hence the same
map) yields two different faces for the same query, and the two runs
then rasterize different glyphs. -/
theorem findFont_depends_on_map_order :
    findFont [("Helvetica-Bold".toList, 1), ("Helvetica-Italic".toList, 2)]
      "Helvetica".toList "BoldItalic".toList = some 1 ∧
    findFont [("Helvetica-Italic".toList, 2), ("Helvetica-Bold".toList, 1)]
      "Helvetica".toList "BoldItalic".toList = some 2 ∧
    List.Perm [("Helvetica-Bold".toList, 1), ("Helvetica-Italic".toList, 2)]
      [("Helvetica-Italic".toList, 2), ("Helvetica-Bold".toList, 1)] := by
  refine ⟨by decide, by decide, ?_⟩
  exact List.Perm.swap _ _ _

/-- C4: an all-zero (hence non-empty) dash pattern makes both dash walks
loop forever instead of drawing a solid stroke: with pattern `[0]` on a
contour of length 10 neither `dashThickLine`'s walk nor
`strokeSegmentsWithDash`'s walk ever terminates, whatever the fuel. -/
theorem dash_all_zero_pattern_loops :
    (∀ fuel dashIdx drawing acc, dashLineWalk [0] 10 fuel 0 dashIdx drawing acc = none) ∧
    (∀ fuel dashIdx drawing acc, dashSegWalk [0] 10 fuel 0 0 dashIdx drawing acc = none) := by
  have h0 : ∀ dashIdx, dashAt [0] dashIdx = 0 := by
    intro dashIdx
    simp [dashAt, Nat.mod_one]
  constructor
  · intro fuel
    induction fuel with
    | zero => intro dashIdx drawing acc; rfl
    | succ g ih =>
      intro dashIdx drawing acc
      show dashLineWalk [0] 10 (g + 1) 0 dashIdx drawing acc = none
      simp only [dashLineWalk, h0]
      norm_num
      exact ih (dashIdx + 1) (!drawing) _
  · intro fuel
    induction fuel with
    | zero => intro dashIdx drawing acc; rfl
    | succ g ih =>
      intro dashIdx drawing acc
      show dashSegWalk [0] 10 (g + 1) 0 0 dashIdx drawing acc = none
      simp only [dashSegWalk, h0]
      norm_num
      exact ih (dashIdx + 1) (!drawing) _

/-- Helper: the blend is skipped when the effective alpha is non-positive. -/
theorem blendPix_nonpos (cr cg cb : Nat) (opacity : ℚ) (m : Nat) (bg : RGBA8)
    (h : (m : ℚ) / 255 * opacity ≤ 0) : blendPix cr cg cb opacity m bg = bg := by
  simp only [blendPix]
  rw [if_pos h]

/-- Helper: the blend formula when the effective alpha is positive. -/
theorem blendPix_pos (cr cg cb : Nat) (opacity : ℚ) (m : Nat) (bg : RGBA8)
    (h : ¬(m : ℚ) / 255 * opacity ≤ 0) :
    blendPix cr cg cb opacity m bg =
      { r := (truncQ ((cr : ℚ) * ((m : ℚ) / 255 * opacity) +
          (bg.r : ℚ) * (1 - (m : ℚ) / 255 * opacity))).toNat
        g := (truncQ ((cg : ℚ) * ((m : ℚ) / 255 * opacity) +
          (bg.g : ℚ) * (1 - (m : ℚ) / 255 * opacity))).toNat
        b := (truncQ ((cb : ℚ) * ((m : ℚ) / 255 * opacity) +
          (bg.b : ℚ) * (1 - (m : ℚ) / 255 * opacity))).toNat
        a := (truncQ (min 255 ((bg.a : ℚ) + (m : ℚ) * opacity))).toNat } := by
  simp only [blendPix]
  rw [if_neg h]

/-- C7: per pixel, `compositeAlpha` leaves the framebuffer pixel exactly
unchanged when the coverage is zero or the effective alpha
(coverage · opacity · clip coverage) is zero; a pixel is only ever
modified when the effective alpha is positive, and then each color
channel is the source-over blend `out = src*a + dst*(1−a)` (the alpha
channel accumulates, `min(255, dst.a + coverage·opacity)`). -/
theorem compositeAlpha_pixel_correct (cr cg cb : Nat) (opacity : ℚ) (clip : Option Nat)
    (mask : Nat) (bg : RGBA8) :
    (mask = 0 → compositePixel cr cg cb opacity clip mask bg = bg) ∧
    ((mask : ℚ) * opacity * clipQ clip = 0 →
      compositePixel cr cg cb opacity clip mask bg = bg) ∧
    (compositePixel cr cg cb opacity clip mask bg ≠ bg →
      0 < (mask : ℚ) * opacity * clipQ clip ∧
      0 < (effMask clip mask : ℚ) / 255 * opacity ∧
      compositePixel cr cg cb opacity clip mask bg =
        { r := (truncQ ((cr : ℚ) * ((effMask clip mask : ℚ) / 255 * opacity) +
            (bg.r : ℚ) * (1 - (effMask clip mask : ℚ) / 255 * opacity))).toNat
          g := (truncQ ((cg : ℚ) * ((effMask clip mask : ℚ) / 255 * opacity) +
            (bg.g : ℚ) * (1 - (effMask clip mask : ℚ) / 255 * opacity))).toNat
          b := (truncQ ((cb : ℚ) * ((effMask clip mask : ℚ) / 255 * opacity) +
            (bg.b : ℚ) * (1 - (effMask clip mask : ℚ) / 255 * opacity))).toNat
          a := (truncQ (min 255 ((bg.a : ℚ) + (effMask clip mask : ℚ) * opacity))).toNat }) := by
  refine ⟨?_, ?_, ?_⟩
  · intro h
    subst h
    simp [compositePixel]
  · intro h
    rcases mul_eq_zero.mp h with h1 | h2
    · rcases mul_eq_zero.mp h1 with hmq | ho
      · have hm : mask = 0 := by exact_mod_cast hmq
        subst hm
        simp [compositePixel]
      · subst ho
        cases clip with
        | none =>
          by_cases hm : mask = 0
          · simp [compositePixel, hm]
          · simp [compositePixel, hm, blendPix_nonpos cr cg cb 0 mask bg (by simp)]
        | some cm =>
          by_cases hm : mask = 0
          · simp [compositePixel, hm]
          · by_cases hcm : cm = 0
            · simp [compositePixel, hm, hcm]
            · simp [compositePixel, hm, hcm,
                blendPix_nonpos cr cg cb 0 (mask * cm / 255) bg (by simp)]
    · cases clip with
      | none => simp [clipQ] at h2
      | some cm =>
        have hcm : cm = 0 := by
          simp only [clipQ] at h2
          exact_mod_cast h2
        subst hcm
        by_cases hm : mask = 0
        · simp [compositePixel, hm]
        · simp [compositePixel, hm]
  · intro hne
    by_cases hm : mask = 0
    · exact absurd (by simp [compositePixel, hm]) hne
    cases clip with
    | none =>
      have hout : compositePixel cr cg cb opacity none mask bg =
          blendPix cr cg cb opacity mask bg := by
        simp [compositePixel, hm]
      by_cases ha : (mask : ℚ) / 255 * opacity ≤ 0
      · exact absurd (hout.trans (blendPix_nonpos cr cg cb opacity mask bg ha)) hne
      · have hapos : 0 < (mask : ℚ) / 255 * opacity := lt_of_not_ge ha
        have hop : 0 < opacity := by
          rcases mul_pos_iff.mp hapos with ⟨_, h⟩ | ⟨hneg, _⟩
          · exact h
          · exact absurd hneg (not_lt.mpr (by positivity))
        have hmq : 0 < (mask : ℚ) := by
          have := Nat.pos_of_ne_zero hm
          exact_mod_cast this
        refine ⟨?_, ?_, ?_⟩
        · simp only [clipQ, mul_one]
          exact mul_pos hmq hop
        · simpa [effMask] using hapos
        · simpa [effMask] using hout.trans (blendPix_pos cr cg cb opacity mask bg ha)
    | some cm =>
      by_cases hcm : cm = 0
      · exact absurd (by simp [compositePixel, hm, hcm]) hne
      have hout : compositePixel cr cg cb opacity (some cm) mask bg =
          blendPix cr cg cb opacity (mask * cm / 255) bg := by
        simp [compositePixel, hm, hcm]
      by_cases ha : ((mask * cm / 255 : Nat) : ℚ) / 255 * opacity ≤ 0
      · exact absurd (hout.trans (blendPix_nonpos cr cg cb opacity (mask * cm / 255) bg ha))
          hne
      · have hapos : 0 < ((mask * cm / 255 : Nat) : ℚ) / 255 * opacity := lt_of_not_ge ha
        have hop : 0 < opacity := by
          rcases mul_pos_iff.mp hapos with ⟨_, h⟩ | ⟨hneg, _⟩
          · exact h
          · exact absurd hneg (not_lt.mpr (by positivity))
        have hmq : 0 < (mask : ℚ) := by
          have := Nat.pos_of_ne_zero hm
          exact_mod_cast this
        have hcq : 0 < (cm : ℚ) := by
          have := Nat.pos_of_ne_zero hcm
          exact_mod_cast this
        refine ⟨?_, ?_, ?_⟩
        · simp only [clipQ]
          exact mul_pos (mul_pos hmq hop) hcq
        · simpa [effMask] using hapos
        · simpa [effMask] using
            hout.trans (blendPix_pos cr cg cb opacity (mask * cm / 255) bg ha)

/-- Witness for C7 at concrete skipped pixels: zero coverage, and zero
effective alpha through a zero opacity. -/
theorem compositeAlpha_pixel_correct_witness :
    compositePixel 100 50 25 1 none 0 ⟨1, 2, 3, 4⟩ = ⟨1, 2, 3, 4⟩ ∧
    compositePixel 100 50 25 0 (some 7) 9 ⟨1, 2, 3, 4⟩ = ⟨1, 2, 3, 4⟩ :=
  ⟨(compositeAlpha_pixel_correct 100 50 25 1 none 0 ⟨1, 2, 3, 4⟩).1 rfl,
   (compositeAlpha_pixel_correct 100 50 25 0 (some 7) 9 ⟨1, 2, 3, 4⟩).2.1 (by simp)⟩

/-- C6 counterexample: gradient stop offsets are used exactly as parsed
(they are not clamped to [0,1]), so for the stop list with offsets 0 and 2
a pixel with unclamped parameter 3/2 > 1 samples an interpolated color,
not the last stop's color, refuting the claim as stated. -/
theorem linearGradient_boundary_cex :
    1 < linearT 0 0 10 0 15 0 ∧
    sampleLinear [⟨0, redCol⟩, ⟨2, blueCol⟩] (linearT 0 0 10 0 15 0) = ⟨127, 0, 127, 255⟩ ∧
    (⟨127, 0, 127, 255⟩ : RGBA8) ≠ (lastStop ⟨0, redCol⟩ [⟨2, blueCol⟩]).col := by
  refine ⟨by with_unfolding_all decide, by with_unfolding_all decide, by decide⟩

/-- C6 (amended): the sample parameter is clamped to [0,1]; beyond `t = 1`
the sampled color equals the last stop's color provided the first stop's
offset is below 1 and the last stop's offset is at most 1 (offsets are
taken as parsed, unclamped); below `t = 0` it equals the first stop's
color provided the first stop's offset is nonnegative; a single-stop
gradient always samples its stop's color. -/
theorem linearGradient_boundary_amended :
    (∀ t : ℚ, 0 ≤ clamp01 t ∧ clamp01 t ≤ 1) ∧
    (∀ (s0 : GradStop) (mid : List GradStop) (slast : GradStop) (t : ℚ),
      1 < t → s0.offset < 1 → slast.offset ≤ 1 →
      sampleLinear (s0 :: (mid ++ [slast])) t = slast.col) ∧
    (∀ (s0 : GradStop) (rest : List GradStop) (t : ℚ),
      t < 0 → 0 ≤ s0.offset → sampleLinear (s0 :: rest) t = s0.col) ∧
    (∀ (s : GradStop) (t : ℚ), sampleLinear [s] t = s.col) := by
  refine ⟨?_, ?_, ?_, ?_⟩
  · intro t
    unfold clamp01
    split_ifs with h1 h2
    · exact ⟨le_refl 0, by norm_num⟩
    · exact ⟨by norm_num, le_refl 1⟩
    · exact ⟨le_of_not_lt h1, le_of_not_lt h2⟩
  · intro s0 mid slast t ht h0 hl
    have hcl : clamp01 t = 1 := by
      unfold clamp01
      rw [if_neg (by linarith), if_pos ht]
    have hlast : lastStop s0 (mid ++ [slast]) = slast := by
      unfold lastStop
      exact List.getLastD_concat _ _ _
    simp only [sampleLinear, hcl, interpolateStops, hlast]
    rw [if_neg (not_le.mpr h0), if_pos hl]
  · intro s0 rest t ht h0
    have hcl : clamp01 t = 0 := by
      unfold clamp01
      rw [if_pos ht]
    simp only [sampleLinear, hcl, interpolateStops]
    rw [if_pos h0]
  · intro s t
    simp only [sampleLinear, interpolateStops]
    by_cases h : clamp01 t ≤ s.offset
    · rw [if_pos h]
    · rw [if_neg h]
      have hge : clamp01 t ≥ (lastStop s []).offset := le_of_lt (not_le.mp h)
      rw [if_pos hge]
      rfl

/-- Witness for C6 (amended) at a two-stop gradient with offsets 0 and 1:
beyond the end the sample is exactly the last stop's blue, below the start
it is exactly the first stop's red. -/
theorem linearGradient_boundary_amended_witness :
    sampleLinear [⟨0, redCol⟩, ⟨1, blueCol⟩] 2 = blueCol ∧
    sampleLinear [⟨0, redCol⟩, ⟨1, blueCol⟩] (-1) = redCol :=
  ⟨linearGradient_boundary_amended.2.1 ⟨0, redCol⟩ [] ⟨1, blueCol⟩ 2
      (by norm_num) (by norm_num) (by norm_num),
   linearGradient_boundary_amended.2.2.1 ⟨0, redCol⟩ [⟨1, blueCol⟩] (-1)
      (by norm_num) (by norm_num)⟩

/-- Helper: once `buildPath` faces the malformed numeric token `.` with a
pending `L` command, one scan iteration consumes no input and changes no
state, so the scan never finishes, for any amount of fuel. -/
theorem runPath_dot_stuck : ∀ (f : Nat) (ps : PState), runPath id f ps 'L' ['.'] = none := by
  intro f
  induction f with
  | zero => intro ps; rfl
  | succ g ih =>
    intro ps
    have hstep : runPath id (g + 1) ps 'L' ['.'] = runPath id g ps 'L' ['.'] := rfl
    rw [hstep]
    exact ih ps

/-- Helper: the scan iteration that reads `M0 0` off the C2 failing input. -/
theorem runPath_c2_stepM (f : Nat) :
    runPath id (f + 1) initPState (Char.ofNat 0) ("M0 0 L5 5 .".toList) =
      runPath id f psM00 'L' (" L5 5 .".toList) := rfl

/-- Helper: the scan iteration that reads `L5 5` and then fails on `.`. -/
theorem runPath_c2_stepL (f : Nat) :
    runPath id (f + 1) psM00 'L' (" L5 5 .".toList) =
      runPath id f psM00L55 'L' ['.'] := rfl

/-- C2: the fill-side path parser does not terminate on every path string.
On `M0 0 L5 5 .` the malformed numeric token `.` makes `readFloat` fail
and stop consuming numbers for the `L` command, but the outer scan loop
then never advances past the `.`, so `buildPath` loops forever (whatever
the fuel) instead of recovering; the geometry parsed before the fault
(shown by the run on the well-formed prefix `M0 0 L5 5`) is never
returned or rendered. -/
theorem pathParser_malformed_number_hangs :
    (∀ fuel, runPath id fuel initPState (Char.ofNat 0) ("M0 0 L5 5 .".toList) = none) ∧
    runPath id 3 initPState (Char.ofNat 0) ("M0 0 L5 5".toList) =
      some [POp.moveTo (0, 0), POp.lineTo (5, 5)] := by
  constructor
  · intro fuel
    match fuel with
    | 0 => rfl
    | f + 1 =>
      rw [runPath_c2_stepM f]
      match f with
      | 0 => rfl
      | f2 + 1 =>
        rw [runPath_c2_stepL f2]
        exact runPath_dot_stuck f2 psM00L55
  · have e1 : ∀ f : Nat, runPath id (f + 1) initPState (Char.ofNat 0) ("M0 0 L5 5".toList) =
        runPath id f psM00 'L' (" L5 5".toList) := fun f => rfl
    have e2 : ∀ f : Nat, runPath id (f + 1) psM00 'L' (" L5 5".toList) =
        runPath id f psM00L55 'L' ([] : List Char) := fun f => rfl
    have e3 : ∀ f : Nat, runPath id (f + 1) psM00L55 'L' ([] : List Char) =
        some [POp.moveTo (0, 0), POp.lineTo (5, 5)] := fun f => rfl
    exact (e1 2).trans ((e2 1).trans (e3 0))

/-- Helper: once `buildPath` holds the unknown command byte `B` and faces
its numeric arguments, the switch (which has no default case) consumes no
input, so the scan never finishes, for any amount of fuel. -/
theorem runPath_unknown_stuck :
    ∀ (f : Nat) (ps : PState), runPath id f ps 'B' ("5 5 L10 10".toList) = none := by
  intro f
  induction f with
  | zero => intro ps; rfl
  | succ g ih =>
    intro ps
    have hstep : runPath id (g + 1) ps 'B' ("5 5 L10 10".toList) =
        runPath id g ps 'B' ("5 5 L10 10".toList) := rfl
    rw [hstep]
    exact ih ps

/-- Helper: the scan iteration that reads `M0 0` off the C9 failing input. -/
theorem runPath_c9_stepM (f : Nat) :
    runPath id (f + 1) initPState (Char.ofNat 0) ("M0 0 B5 5 L10 10".toList) =
      runPath id f psM00 'L' (" B5 5 L10 10".toList) := rfl

/-- Helper: the scan iteration that consumes the unknown letter `B` and
then falls through the switch without a default case. -/
theorem runPath_c9_stepB (f : Nat) :
    runPath id (f + 1) psM00 'L' (" B5 5 L10 10".toList) =
      runPath id f psM00 'B' ("5 5 L10 10".toList) := rfl

/-- C9: an unsupported command letter is skipped only by the stroke-side
parser.  `buildStrokeRasterizer` skips `B5 5` through its default case
and goes on to emit the `L10 10` segment, but `buildPath`'s switch has no
default case: on `M0 0 B5 5 L10 10` the fill parser makes no progress at
the first numeric token after `B` and loops forever, whatever the fuel,
instead of skipping the tokens and continuing. -/
theorem unknownCommand_parser_progress :
    (∀ fuel,
      runPath id fuel initPState (Char.ofNat 0) ("M0 0 B5 5 L10 10".toList) = none) ∧
    runStroke id 4 initSState (Char.ofNat 0) ("M0 0 B5 5 L10 10".toList) =
      some [((0, 0), (10, 10))] := by
  constructor
  · intro fuel
    match fuel with
    | 0 => rfl
    | f + 1 =>
      rw [runPath_c9_stepM f]
      match f with
      | 0 => rfl
      | f2 + 1 =>
        rw [runPath_c9_stepB f2]
        exact runPath_unknown_stuck f2 psM00
  · have e1 : ∀ f : Nat, runStroke id (f + 1) initSState (Char.ofNat 0)
        ("M0 0 B5 5 L10 10".toList) =
        runStroke id f ⟨(0, 0), (0, 0), []⟩ 'L' (" B5 5 L10 10".toList) := fun f => rfl
    have e2 : ∀ f : Nat, runStroke id (f + 1) (⟨(0, 0), (0, 0), []⟩ : SState) 'L'
        (" B5 5 L10 10".toList) =
        runStroke id f ⟨(0, 0), (0, 0), []⟩ 'B' ("L10 10".toList) := fun f => rfl
    have e3 : ∀ f : Nat, runStroke id (f + 1) (⟨(0, 0), (0, 0), []⟩ : SState) 'B'
        ("L10 10".toList) =
        runStroke id f ⟨(10, 10), (0, 0), [((0, 0), (10, 10))]⟩ 'L' ([] : List Char) :=
      fun f => rfl
    have e4 : ∀ f : Nat, runStroke id (f + 1) (⟨(10, 10), (0, 0), [((0, 0), (10, 10))]⟩ : SState)
        'L' ([] : List Char) = some [((0, 0), (10, 10))] := fun f => rfl
    exact (e1 3).trans ((e2 2).trans ((e3 1).trans (e4 0)))

/-- C3 counterexample: in `M5,5 S12,10 20,20` the `S` follows no curve,
yet the emitted cubic's first control point is (10,10) — the reflection
of the initial last-control value (0,0) about the current point (5,5) —
and not the current point (5,5) that the claim requires. -/
theorem reflection_no_previous_curve_cex :
    runPath id 3 initPState (Char.ofNat 0) ("M5,5 S12,10 20,20".toList) =
      some [POp.moveTo (5, 5), POp.cubeTo (10, 10) (12, 10) (20, 20)] ∧
    (Dec.toRat 10, Dec.toRat 10) ≠ (Dec.toRat 5, Dec.toRat 5) := by
  constructor
  · have e1 : ∀ f : Nat, runPath id (f + 1) initPState (Char.ofNat 0)
        ("M5,5 S12,10 20,20".toList) =
        runPath id f ⟨(5, 5), (5, 5), (0, 0), [POp.moveTo (5, 5)]⟩ 'L'
          (" S12,10 20,20".toList) := fun f => rfl
    have e2 : ∀ f : Nat, runPath id (f + 1) (⟨(5, 5), (5, 5), (0, 0), [POp.moveTo (5, 5)]⟩ :
        PState) 'L' (" S12,10 20,20".toList) =
        runPath id f ⟨(20, 20), (5, 5), (12, 10),
          [POp.moveTo (5, 5), POp.cubeTo (10, 10) (12, 10) (20, 20)]⟩ 'S'
          ([] : List Char) := fun f => rfl
    have e3 : ∀ f : Nat, runPath id (f + 1) (⟨(20, 20), (5, 5), (12, 10),
          [POp.moveTo (5, 5), POp.cubeTo (10, 10) (12, 10) (20, 20)]⟩ : PState) 'S'
        ([] : List Char) =
        some [POp.moveTo (5, 5), POp.cubeTo (10, 10) (12, 10) (20, 20)] := fun f => rfl
    exact (e1 2).trans ((e2 1).trans (e3 0))
  · intro h
    have h1 : Dec.toRat 10 = Dec.toRat 5 := congrArg Prod.fst h
    have e10 : Dec.toRat 10 = (10 : ℚ) := by
      show Dec.toRat ⟨10, 0⟩ = 10
      unfold Dec.toRat
      norm_num
    have e5 : Dec.toRat 5 = (5 : ℚ) := by
      show Dec.toRat ⟨5, 0⟩ = 5
      unfold Dec.toRat
      norm_num
    rw [e10, e5] at h1
    norm_num at h1

/-- C3 (amended): `S` (and `T`) always compute the first control point as
`2*current − lastControl`, where `lastControl` is the most recently
stored control point — initialized to (0,0) and left unchanged by
non-curve commands — rather than falling back to the current point when
no eligible curve precedes; in particular the path
`M0,0 C10,0 10,10 20,10 S30,20 40,10` yields a second cubic whose first
control point is (30,10). -/
theorem reflection_uses_stored_lastControl :
    (∀ (tp : Dec × Dec → Dec × Dec) (v : (Dec × Dec) × (Dec × Dec)) (ps : PState),
      (updS tp v ps).ops = ps.ops ++
        [POp.cubeTo (tp (2 * ps.cur.1 - ps.lastCP.1, 2 * ps.cur.2 - ps.lastCP.2))
          (tp v.1) (tp v.2)]) ∧
    (∀ (tp : Dec × Dec → Dec × Dec) (v : Dec × Dec) (ps : PState),
      (updT tp v ps).ops = ps.ops ++
        [POp.quadTo (tp (2 * ps.cur.1 - ps.lastCP.1, 2 * ps.cur.2 - ps.lastCP.2)) (tp v)]) ∧
    (∀ a b : Dec, (2 * a - b).toRat = 2 * a.toRat - b.toRat) ∧
    runPath id 4 initPState (Char.ofNat 0) ("M0,0 C10,0 10,10 20,10 S30,20 40,10".toList) =
      some [POp.moveTo (0, 0), POp.cubeTo (10, 0) (10, 10) (20, 10),
        POp.cubeTo (30, 10) (30, 20) (40, 10)] :=
  ⟨fun tp v ps => rfl, fun tp v ps => rfl,
   fun a b => by rw [Dec.toRat_sub, Dec.toRat_mul, Dec.toRat_two],
   by
    have e1 : ∀ f : Nat, runPath id (f + 1) initPState (Char.ofNat 0)
        ("M0,0 C10,0 10,10 20,10 S30,20 40,10".toList) =
        runPath id f psM00 'L' (" C10,0 10,10 20,10 S30,20 40,10".toList) := fun f => rfl
    have e2 : ∀ f : Nat, runPath id (f + 1) psM00 'L'
        (" C10,0 10,10 20,10 S30,20 40,10".toList) =
        runPath id f ⟨(20, 10), (0, 0), (10, 10),
          [POp.moveTo (0, 0), POp.cubeTo (10, 0) (10, 10) (20, 10)]⟩ 'C'
          ("S30,20 40,10".toList) := fun f => rfl
    have e3 : ∀ f : Nat, runPath id (f + 1) (⟨(20, 10), (0, 0), (10, 10),
          [POp.moveTo (0, 0), POp.cubeTo (10, 0) (10, 10) (20, 10)]⟩ : PState) 'C'
        ("S30,20 40,10".toList) =
        runPath id f ⟨(40, 10), (0, 0), (30, 20),
          [POp.moveTo (0, 0), POp.cubeTo (10, 0) (10, 10) (20, 10),
            POp.cubeTo (30, 10) (30, 20) (40, 10)]⟩ 'S' ([] : List Char) := fun f => rfl
    have e4 : ∀ f : Nat, runPath id (f + 1) (⟨(40, 10), (0, 0), (30, 20),
          [POp.moveTo (0, 0), POp.cubeTo (10, 0) (10, 10) (20, 10),
            POp.cubeTo (30, 10) (30, 20) (40, 10)]⟩ : PState) 'S' ([] : List Char) =
        some [POp.moveTo (0, 0), POp.cubeTo (10, 0) (10, 10) (20, 10),
          POp.cubeTo (30, 10) (30, 20) (40, 10)] := fun f => rfl
    exact (e1 3).trans ((e2 2).trans ((e3 1).trans (e4 0)))⟩

/-- The corrected x-radius is positive when the input radius is nonzero. -/
theorem arcRxa_pos (A : ArcIn) (hrx : A.rx ≠ 0) : 0 < arcRxa A := by
  have h0 : 0 < arcRx0 A := by unfold arcRx0; exact abs_pos.mpr hrx
  unfold arcRxa
  split
  case isTrue h => exact mul_pos h0 (Real.sqrt_pos.mpr (by linarith))
  case isFalse h => exact h0

/-- The corrected y-radius is positive when the input radius is nonzero. -/
theorem arcRya_pos (A : ArcIn) (hry : A.ry ≠ 0) : 0 < arcRya A := by
  have h0 : 0 < arcRy0 A := by unfold arcRy0; exact abs_pos.mpr hry
  unfold arcRya
  split
  case isTrue h => exact mul_pos h0 (Real.sqrt_pos.mpr (by linarith))
  case isFalse h => exact h0

/-- Squared corrected x-radius in the scaled-up case. -/
theorem arcRxa_sq_of_lt (A : ArcIn) (h : 1 < arcLam A) :
    arcRxa A ^ 2 = arcRx0 A ^ 2 * arcLam A := by
  unfold arcRxa
  rw [if_pos h, mul_pow, Real.sq_sqrt (by linarith)]

/-- Squared corrected y-radius in the scaled-up case. -/
theorem arcRya_sq_of_lt (A : ArcIn) (h : 1 < arcLam A) :
    arcRya A ^ 2 = arcRy0 A ^ 2 * arcLam A := by
  unfold arcRya
  rw [if_pos h, mul_pow, Real.sq_sqrt (by linarith)]

/-- The corrected x-radius in the no-scaling case. -/
theorem arcRxa_eq_of_le (A : ArcIn) (h : ¬ 1 < arcLam A) : arcRxa A = arcRx0 A := by
  unfold arcRxa
  rw [if_neg h]

/-- The corrected y-radius in the no-scaling case. -/
theorem arcRya_eq_of_le (A : ArcIn) (h : ¬ 1 < arcLam A) : arcRya A = arcRy0 A := by
  unfold arcRya
  rw [if_neg h]

/-- The rotated midpoint offset is nonzero for distinct endpoints. -/
theorem arc_p_pos (A : ArcIn) (hne : ¬(A.x1 = A.x2 ∧ A.y1 = A.y2)) :
    0 < arcX1p A ^ 2 + arcY1p A ^ 2 := by
  have hcs : arcCphi A ^ 2 + arcSphi A ^ 2 = 1 := by
    unfold arcCphi arcSphi
    exact Real.cos_sq_add_sin_sq _
  have hsum : arcX1p A ^ 2 + arcY1p A ^ 2 = arcDx A ^ 2 + arcDy A ^ 2 := by
    unfold arcX1p arcY1p
    linear_combination (arcDx A ^ 2 + arcDy A ^ 2) * hcs
  rw [hsum]
  have hd : arcDx A ≠ 0 ∨ arcDy A ≠ 0 := by
    unfold arcDx arcDy
    by_contra hcon
    push_neg at hcon
    exact hne ⟨by linarith [hcon.1], by linarith [hcon.2]⟩
  rcases hd with h | h
  · have h1 : 0 < arcDx A ^ 2 := pow_two_pos_of_ne_zero h
    have h2 : 0 ≤ arcDy A ^ 2 := sq_nonneg _
    linarith
  · have h1 : 0 < arcDy A ^ 2 := pow_two_pos_of_ne_zero h
    have h2 : 0 ≤ arcDx A ^ 2 := sq_nonneg _
    linarith

/-- The denominator of the center formula is positive for valid inputs. -/
theorem arcDen_pos (A : ArcIn) (hrx : A.rx ≠ 0) (hry : A.ry ≠ 0)
    (hne : ¬(A.x1 = A.x2 ∧ A.y1 = A.y2)) : 0 < arcDen A := by
  have hp := arc_p_pos A hne
  have hrxa := arcRxa_pos A hrx
  have hrya := arcRya_pos A hry
  have hd : arcX1p A ≠ 0 ∨ arcY1p A ≠ 0 := by
    by_contra hcon
    push_neg at hcon
    rw [hcon.1, hcon.2] at hp
    simp at hp
  unfold arcDen
  rcases hd with h | h
  · have h1 : 0 < arcRya A ^ 2 * arcX1p A ^ 2 :=
      mul_pos (pow_pos hrya 2) (pow_two_pos_of_ne_zero h)
    have h2 : 0 ≤ arcRxa A ^ 2 * arcY1p A ^ 2 := mul_nonneg (sq_nonneg _) (sq_nonneg _)
    linarith
  · have h1 : 0 < arcRxa A ^ 2 * arcY1p A ^ 2 :=
      mul_pos (pow_pos hrxa 2) (pow_two_pos_of_ne_zero h)
    have h2 : 0 ≤ arcRya A ^ 2 * arcX1p A ^ 2 := mul_nonneg (sq_nonneg _) (sq_nonneg _)
    linarith

/-- The numerator of the half-axis formula is never negative. -/
theorem arcNum_nonneg (A : ArcIn) (hrx : A.rx ≠ 0) (hry : A.ry ≠ 0) : 0 ≤ arcNum A := by
  have hx0 : arcRx0 A ≠ 0 := by unfold arcRx0; exact abs_ne_zero.mpr hrx
  have hy0 : arcRy0 A ≠ 0 := by unfold arcRy0; exact abs_ne_zero.mpr hry
  have hkey : arcRx0 A ^ 2 * arcRy0 A ^ 2 * arcLam A
      = arcRx0 A ^ 2 * arcY1p A ^ 2 + arcRy0 A ^ 2 * arcX1p A ^ 2 := by
    unfold arcLam
    field_simp
    ring
  unfold arcNum
  rcases lt_or_le 1 (arcLam A) with h | h
  · rw [arcRxa_sq_of_lt A h, arcRya_sq_of_lt A h]
    have hz : arcRx0 A ^ 2 * arcLam A * (arcRy0 A ^ 2 * arcLam A)
        - arcRx0 A ^ 2 * arcLam A * arcY1p A ^ 2
        - arcRy0 A ^ 2 * arcLam A * arcX1p A ^ 2 = 0 := by
      linear_combination arcLam A * hkey
    linarith
  · rw [arcRxa_eq_of_le A (not_lt.mpr h), arcRya_eq_of_le A (not_lt.mpr h)]
    have h2 : arcRx0 A ^ 2 * arcRy0 A ^ 2 - arcRx0 A ^ 2 * arcY1p A ^ 2
        - arcRy0 A ^ 2 * arcX1p A ^ 2 = arcRx0 A ^ 2 * arcRy0 A ^ 2 * (1 - arcLam A) := by
      linear_combination hkey
    rw [h2]
    exact mul_nonneg (mul_nonneg (sq_nonneg _) (sq_nonneg _)) (by linarith)

/-- The scale factor `sq` satisfies `(1+sq^2) * lambda_corrected = 1`. -/
theorem arc_sq_rel (A : ArcIn) (hrx : A.rx ≠ 0) (hry : A.ry ≠ 0)
    (hne : ¬(A.x1 = A.x2 ∧ A.y1 = A.y2)) :
    (1 + arcSq A ^ 2) * (arcX1p A ^ 2 / arcRxa A ^ 2 + arcY1p A ^ 2 / arcRya A ^ 2) = 1 := by
  have hrxa0 : arcRxa A ≠ 0 := (arcRxa_pos A hrx).ne'
  have hrya0 : arcRya A ≠ 0 := (arcRya_pos A hry).ne'
  have hden := arcDen_pos A hrx hry hne
  have hnn := arcNum_nonneg A hrx hry
  have hsum : arcNum A + arcDen A = arcRxa A ^ 2 * arcRya A ^ 2 := by
    unfold arcNum arcDen
    ring
  have hL : arcX1p A ^ 2 / arcRxa A ^ 2 + arcY1p A ^ 2 / arcRya A ^ 2
      = arcDen A / (arcRxa A ^ 2 * arcRya A ^ 2) := by
    unfold arcDen
    field_simp
    ring
  have hsq2 : arcSq A ^ 2 = arcSq0 A ^ 2 := by
    unfold arcSq
    split
    · ring
    · ring
  rw [hsq2, hL]
  unfold arcSq0
  split
  case isTrue hc =>
    rw [Real.sq_sqrt (le_of_lt hc.2)]
    have hstep : 1 + arcNum A / arcDen A = (arcRxa A ^ 2 * arcRya A ^ 2) / arcDen A := by
      rw [eq_div_iff hden.ne', add_mul, one_mul, div_mul_cancel₀ _ hden.ne']
      linarith
    rw [hstep, div_mul_div_comm, mul_comm (arcRxa A ^ 2 * arcRya A ^ 2) (arcDen A),
      div_self (by positivity)]
  case isFalse hc =>
    have hnum0 : arcNum A = 0 := by
      rcases not_and_or.mp hc with h | h
      · exact absurd hden h
      · have h3 : arcNum A ≤ 0 := by
          by_contra h4
          push_neg at h4
          exact h (div_pos h4 hden)
        linarith
    have hden2 : arcDen A = arcRxa A ^ 2 * arcRya A ^ 2 := by linarith
    rw [hden2, div_self (by positivity)]
    norm_num

/-- The start direction vector is a unit vector. -/
theorem arc_unit_u (A : ArcIn) (hrx : A.rx ≠ 0) (hry : A.ry ≠ 0)
    (hne : ¬(A.x1 = A.x2 ∧ A.y1 = A.y2)) : arcUx A ^ 2 + arcUy A ^ 2 = 1 := by
  have hrxa0 : arcRxa A ≠ 0 := (arcRxa_pos A hrx).ne'
  have hrya0 : arcRya A ≠ 0 := (arcRya_pos A hry).ne'
  have h := arc_sq_rel A hrx hry hne
  have hu : arcUx A ^ 2 + arcUy A ^ 2
      = (1 + arcSq A ^ 2) * (arcX1p A ^ 2 / arcRxa A ^ 2 + arcY1p A ^ 2 / arcRya A ^ 2) := by
    unfold arcUx arcUy arcCxp arcCyp
    field_simp
    ring
  rw [hu, h]

/-- The end direction vector is a unit vector. -/
theorem arc_unit_v (A : ArcIn) (hrx : A.rx ≠ 0) (hry : A.ry ≠ 0)
    (hne : ¬(A.x1 = A.x2 ∧ A.y1 = A.y2)) : arcVx A ^ 2 + arcVy A ^ 2 = 1 := by
  have hrxa0 : arcRxa A ≠ 0 := (arcRxa_pos A hrx).ne'
  have hrya0 : arcRya A ≠ 0 := (arcRya_pos A hry).ne'
  have h := arc_sq_rel A hrx hry hne
  have hv : arcVx A ^ 2 + arcVy A ^ 2
      = (1 + arcSq A ^ 2) * (arcX1p A ^ 2 / arcRxa A ^ 2 + arcY1p A ^ 2 / arcRya A ^ 2) := by
    unfold arcVx arcVy arcCxp arcCyp
    field_simp
    ring
  rw [hv, h]

/-- The clamped dot product and the cross product lie on the unit circle. -/
theorem arc_dot_cross_sq (A : ArcIn) (hrx : A.rx ≠ 0) (hry : A.ry ≠ 0)
    (hne : ¬(A.x1 = A.x2 ∧ A.y1 = A.y2)) :
    arcDotRaw A ^ 2 + arcCross A ^ 2 = 1 := by
  have hu := arc_unit_u A hrx hry hne
  have hv := arc_unit_v A hrx hry hne
  have hprod : arcDotRaw A ^ 2 + arcCross A ^ 2
      = (arcUx A ^ 2 + arcUy A ^ 2) * (arcVx A ^ 2 + arcVy A ^ 2) := by
    unfold arcDotRaw arcCross
    ring
  rw [hprod, hu, hv, one_mul]

/-- The ellipse point at the swept end angle is the requested endpoint. -/
theorem arc_endpoint_pt (A : ArcIn) (hrx : A.rx ≠ 0) (hry : A.ry ≠ 0)
    (hne : ¬(A.x1 = A.x2 ∧ A.y1 = A.y2)) :
    arcEllipsePt A (arcTheta1 A + arcDtheta A) = (A.x2, A.y2) := by
  have hrxa0 : arcRxa A ≠ 0 := (arcRxa_pos A hrx).ne'
  have hrya0 : arcRya A ≠ 0 := (arcRya_pos A hry).ne'
  have hu := arc_unit_u A hrx hry hne
  have hdc := arc_dot_cross_sq A hrx hry hne
  have hd2 : arcDotRaw A ^ 2 ≤ 1 := by linarith [sq_nonneg (arcCross A)]
  have hdle : arcDotRaw A ≤ 1 := by nlinarith [sq_nonneg (arcDotRaw A - 1)]
  have hdge : (-1 : ℝ) ≤ arcDotRaw A := by nlinarith [sq_nonneg (arcDotRaw A + 1)]
  have hclamp : arcDot A = arcDotRaw A := by
    unfold arcDot
    rw [min_eq_right hdle, max_eq_right hdge]
  have hDlo : (-1 : ℝ) ≤ arcDot A := le_max_left _ _
  have hDhi : arcDot A ≤ 1 := max_le (by norm_num) (min_le_left _ _)
  have hcos0 : Real.cos (arcDth0 A) = arcDotRaw A := by
    unfold arcDth0
    rw [Real.cos_arccos hDlo hDhi, hclamp]
  have hsin0 : Real.sin (arcDth0 A) = |arcCross A| := by
    unfold arcDth0
    rw [Real.sin_arccos, hclamp]
    rw [show 1 - arcDotRaw A ^ 2 = arcCross A ^ 2 by linarith]
    exact Real.sqrt_sq_eq_abs _
  have hcos1 : Real.cos (arcDth1 A) = arcDotRaw A := by
    unfold arcDth1
    split
    · rw [Real.cos_neg]
      exact hcos0
    · exact hcos0
  have hsin1 : Real.sin (arcDth1 A) = arcCross A := by
    unfold arcDth1
    split
    case isTrue hlt => rw [Real.sin_neg, hsin0, abs_of_neg hlt, neg_neg]
    case isFalse hge => rw [hsin0, abs_of_nonneg (not_lt.mp hge)]
  have hcosd : Real.cos (arcDtheta A) = arcDotRaw A := by
    unfold arcDtheta
    split
    · rw [Real.cos_add_two_pi]
      exact hcos1
    · split
      · rw [Real.cos_sub_two_pi]
        exact hcos1
      · exact hcos1
  have hsind : Real.sin (arcDtheta A) = arcCross A := by
    unfold arcDtheta
    split
    · rw [Real.sin_add_two_pi]
      exact hsin1
    · split
      · rw [Real.sin_sub_two_pi]
        exact hsin1
      · exact hsin1
  have habs : Complex.abs ⟨arcUx A, arcUy A⟩ = 1 := by
    rw [Complex.abs_apply, Complex.normSq_mk]
    rw [show arcUx A * arcUx A + arcUy A * arcUy A = 1 by linear_combination hu]
    exact Real.sqrt_one
  have hz : (⟨arcUx A, arcUy A⟩ : ℂ) ≠ 0 := by
    intro h0
    rw [h0] at habs
    simp at habs
  have hcost1 : Real.cos (arcTheta1 A) = arcUx A := by
    unfold arcTheta1
    rw [Complex.cos_arg hz, habs, div_one]
  have hsint1 : Real.sin (arcTheta1 A) = arcUy A := by
    unfold arcTheta1
    rw [Complex.sin_arg, habs, div_one]
  have hdcr : arcDotRaw A = arcUx A * arcVx A + arcUy A * arcVy A := rfl
  have hcrr : arcCross A = arcUx A * arcVy A - arcUy A * arcVx A := rfl
  have hcos : Real.cos (arcTheta1 A + arcDtheta A) = arcVx A := by
    rw [Real.cos_add, hcost1, hsint1, hcosd, hsind]
    linear_combination arcVx A * hu + arcUx A * hdcr - arcUy A * hcrr
  have hsin : Real.sin (arcTheta1 A + arcDtheta A) = arcVy A := by
    rw [Real.sin_add, hsint1, hcost1, hcosd, hsind]
    linear_combination arcVy A * hu + arcUy A * hdcr + arcUx A * hcrr
  have hvx : arcRxa A * arcVx A = -arcX1p A - arcCxp A := by
    unfold arcVx
    field_simp
  have hvy : arcRya A * arcVy A = -arcY1p A - arcCyp A := by
    unfold arcVy
    field_simp
  have hcs : arcCphi A ^ 2 + arcSphi A ^ 2 = 1 := by
    unfold arcCphi arcSphi
    exact Real.cos_sq_add_sin_sq _
  unfold arcX1p at hvx
  unfold arcY1p at hvy
  unfold arcDx arcDy at hvx hvy
  unfold arcEllipsePt
  rw [hcos, hsin, Prod.mk.injEq]
  constructor
  · unfold arcCx
    linear_combination arcCphi A * hvx - arcSphi A * hvy + (-(A.x1 - A.x2) / 2) * hcs
  · unfold arcCy
    linear_combination arcSphi A * hvx + arcCphi A * hvy + (-(A.y1 - A.y2) / 2) * hcs

/-- C5: for nonzero radii and distinct endpoints `arcToBezier` emits a
nonempty chain of cubics whose final on-curve point is exactly the
requested endpoint `(x2, y2)` (exact over the real idealization, hence
within any positive tolerance such as 1e-3 px). -/
theorem arc_endpoint_exact (A : ArcIn) (hrx : A.rx ≠ 0) (hry : A.ry ≠ 0)
    (hne : ¬(A.x1 = A.x2 ∧ A.y1 = A.y2)) :
    ∃ l, arcToBezierR A = ArcOut.curves l ∧
      ∃ c, l.getLast? = some c ∧ c.e = (A.x2, A.y2) := by
  have hg : ¬(A.rx = 0 ∨ A.ry = 0) := by
    push_neg
    exact ⟨hrx, hry⟩
  obtain ⟨m, hm⟩ : ∃ m, arcNSegs A = m + 1 := by
    have h1 : 1 ≤ arcNSegs A := by
      unfold arcNSegs
      exact le_max_left 1 _
    exact ⟨arcNSegs A - 1, by omega⟩
  refine ⟨(List.range (arcNSegs A)).map (arcSegCubic A), ?_, arcSegCubic A m, ?_, ?_⟩
  · unfold arcToBezierR
    rw [if_neg hg, if_neg hne]
  · rw [hm, List.range_succ, List.map_append, List.map_singleton, List.getLast?_concat]
  · have hm1 : ((m : ℝ) + 1) ≠ 0 := by positivity
    have ht : arcTheta1 A + ((m : ℝ) + 1) * arcDts A = arcTheta1 A + arcDtheta A := by
      unfold arcDts
      rw [hm]
      push_cast
      congr 1
      rw [mul_comm, div_mul_cancel₀ _ hm1]
    show arcEllipsePt A (arcTheta1 A + ((m : ℝ) + 1) * arcDts A) = (A.x2, A.y2)
    rw [ht]
    exact arc_endpoint_pt A hrx hry hne

/-- Witness: a quarter arc of the unit circle from the origin to (1,1). -/
theorem arc_endpoint_exact_witness :
    ∃ l, arcToBezierR ⟨0, 0, 1, 1, 0, false, false, 1, 1⟩ = ArcOut.curves l ∧
      ∃ c, l.getLast? = some c ∧ c.e = (1, 1) :=
  arc_endpoint_exact ⟨0, 0, 1, 1, 0, false, false, 1, 1⟩ (by norm_num) (by norm_num)
    (by norm_num)

end Svg2png
